import Mathlib

/-!
Verification development for the signal-detection and aggregation core of the
ai-fin4 repository.  The Python source is shallowly embedded: pandas frames
become lists of rows, floats become exact rationals (with IEEE special values
NaN / +inf modelled explicitly where the code relies on them), Python's stable
`sorted` becomes `List.insertionSort` (a stable sort), and exceptions become
`Except`.  Definitions are translated from the source files named in the
comments above them.
-/

/-! ## Signal data model (src/signals/signal.py, src/signals/signal_strength.py)

`Signal` is a frozen dataclass; its `details : Dict[str, Any]` map is modelled
as an association list of strings, `timestamp` (a `datetime` produced by a
default-factory clock) as a natural number supplied by an explicit clock
argument, and `confidence` / `value` as exact rationals. -/

structure Signal where
  name : String
  category : String
  strength : String
  description : String
  timeframe : String
  value : Option ℚ
  confidence : ℚ
  timestamp : ℕ
  indicator_name : Option String
  details : List (String × String)
  trading_implication : Option String
deriving DecidableEq, Repr

/-- Substring test on lists of characters: models Python's `pat in s`. -/
def strContainsAux (pat : List Char) : List Char → Bool
  | [] => pat.isEmpty
  | c :: rest => pat.isPrefixOf (c :: rest) || strContainsAux pat rest

/-- Substring test on strings: models Python's `pat in s`. -/
def strContains (s pat : String) : Bool := strContainsAux pat.data s.data

/-- Python's `str.upper()` (character-wise uppercasing; equal to
`String.toUpper`, restated over the character list so that it evaluates by
kernel reduction). -/
def strUpper (s : String) : String := ⟨s.data.map Char.toUpper⟩

namespace SignalStrength

/-- SignalStrength.is_bullish: `"BULLISH" in strength.upper()`. -/
def is_bullish (strength : String) : Bool := strContains (strUpper strength) "BULLISH"

/-- SignalStrength.is_bearish: `"BEARISH" in strength.upper()`. -/
def is_bearish (strength : String) : Bool := strContains (strUpper strength) "BEARISH"

/-- SignalStrength.is_neutral: `strength == SignalStrength.NEUTRAL`. -/
def is_neutral (strength : String) : Bool := strength == "NEUTRAL"

end SignalStrength

namespace Signal

/-- Signal.is_bullish. -/
def is_bullish (s : Signal) : Bool := SignalStrength.is_bullish s.strength

/-- Signal.is_bearish. -/
def is_bearish (s : Signal) : Bool := SignalStrength.is_bearish s.strength

/-- Signal.is_neutral. -/
def is_neutral (s : Signal) : Bool := SignalStrength.is_neutral s.strength

end Signal

/-! ## SignalFilter (src/signals/signal_filter.py) -/

namespace SignalFilter

def by_bullish (signals : List Signal) : List Signal :=
  signals.filter fun s => s.is_bullish

def by_bearish (signals : List Signal) : List Signal :=
  signals.filter fun s => s.is_bearish

def by_confidence (signals : List Signal) (min_confidence : ℚ) : List Signal :=
  signals.filter fun s => min_confidence ≤ s.confidence

end SignalFilter

/-! ## SignalSorter (src/signals/signal_sorter.py)

Python's `sorted` is a stable sort; `List.insertionSort` is stable, so each
`sorted(signals, key=...)` call is embedded as an insertion sort on the
corresponding total preorder. -/

namespace SignalSorter

/-- The fixed `strength_order` table of SignalSorter.by_strength, with the
`.get(s.strength, 99)` default for unranked strengths. -/
def strengthRank (strength : String) : ℕ :=
  if strength = "EXTREME BULLISH" then 0
  else if strength = "STRONG BULLISH" then 1
  else if strength = "BULLISH" then 2
  else if strength = "MODERATE" then 3
  else if strength = "NEUTRAL" then 4
  else if strength = "BEARISH" then 5
  else if strength = "STRONG BEARISH" then 6
  else if strength = "EXTREME BEARISH" then 7
  else 99

/-- The strength-rank comparison used by SignalSorter.by_strength. -/
def strengthLe (a b : Signal) : Prop :=
  strengthRank a.strength ≤ strengthRank b.strength

instance : DecidableRel strengthLe :=
  fun a b => inferInstanceAs (Decidable (strengthRank a.strength ≤ strengthRank b.strength))

instance : IsTotal Signal strengthLe :=
  ⟨fun a b => Nat.le_total (strengthRank a.strength) (strengthRank b.strength)⟩

instance : IsTrans Signal strengthLe := ⟨fun _a _b _c => Nat.le_trans⟩

/-- The ascending-confidence comparison of SignalSorter.by_confidence. -/
def confLe (a b : Signal) : Prop := a.confidence ≤ b.confidence

instance : DecidableRel confLe :=
  fun a b => inferInstanceAs (Decidable (a.confidence ≤ b.confidence))

/-- The descending-confidence comparison of SignalSorter.by_confidence with
`reverse=True` (the aggregator's call). -/
def confGe (a b : Signal) : Prop := b.confidence ≤ a.confidence

instance : DecidableRel confGe :=
  fun a b => inferInstanceAs (Decidable (b.confidence ≤ a.confidence))

/-- SignalSorter.by_strength: stable sort by ascending strength rank. -/
def by_strength (signals : List Signal) : List Signal :=
  signals.insertionSort strengthLe

/-- SignalSorter.by_confidence: stable sort by confidence; with
`ascending = false` (the aggregator's call) this is `reverse=True`,
i.e. descending confidence. -/
def by_confidence (signals : List Signal) (ascending : Bool) : List Signal :=
  if ascending then signals.insertionSort confLe
  else signals.insertionSort confGe

/-- SignalSorter.by_category: groups signals by category into an
insertion-ordered dictionary (modelled as an association list). -/
def addToGroups (groups : List (String × List Signal)) (key : String) (s : Signal) :
    List (String × List Signal) :=
  match groups with
  | [] => [(key, [s])]
  | (k, g) :: rest =>
    if k = key then (k, g ++ [s]) :: rest else (k, g) :: addToGroups rest key s

def by_category (signals : List Signal) : List (String × List Signal) :=
  signals.foldl (fun acc s => addToGroups acc s.category s) []

end SignalSorter

/-! ## SignalAggregator (src/signals/aggregator.py) -/

/-- AggregationResult (counts are Python ints, hence ℤ). -/
structure AggregationResult where
  signals : List Signal
  signal_count : ℤ
  bullish_count : ℤ
  bearish_count : ℤ
  neutral_count : ℤ
  by_category : List (String × List Signal)
  by_strength : List (String × List Signal)
  duplicates_removed : ℕ

namespace SignalAggregator

/-- The dedup signature of SignalAggregator._deduplicate:
`f"{category}_{strength}_{name[:20]}"`. -/
def signature (s : Signal) : String :=
  s.category ++ "_" ++ s.strength ++ "_" ++ s.name.take 20

/-- The loop of SignalAggregator._deduplicate, carrying the `seen` set. -/
def dedupAux : List String → List Signal → List Signal
  | _, [] => []
  | seen, s :: rest =>
    if signature s ∈ seen then dedupAux seen rest
    else s :: dedupAux (signature s :: seen) rest

/-- SignalAggregator._deduplicate: first occurrence of each signature wins. -/
def deduplicate (signals : List Signal) : List Signal := dedupAux [] signals

/-- Grouping by strength done inline in SignalAggregator._build_result. -/
def groupByStrength (signals : List Signal) : List (String × List Signal) :=
  signals.foldl (fun acc s => SignalSorter.addToGroups acc s.strength s) []

/-- SignalAggregator._build_result. -/
def buildResult (signals : List Signal) (duplicates_removed : ℕ) : AggregationResult :=
  let bullish : ℤ := (SignalFilter.by_bullish signals).length
  let bearish : ℤ := (SignalFilter.by_bearish signals).length
  { signals := signals
    signal_count := (signals.length : ℤ)
    bullish_count := bullish
    bearish_count := bearish
    neutral_count := (signals.length : ℤ) - bullish - bearish
    by_category := SignalSorter.by_category signals
    by_strength := groupByStrength signals
    duplicates_removed := duplicates_removed }

/-- The detector loop of SignalAggregator.detect: each detector either
returns signals (extended onto the accumulator) or raises, in which case the
error is logged and the run continues. -/
def collectSignals {α : Type} (detectors : List (α → Except String (List Signal)))
    (df : α) : List Signal :=
  detectors.foldl
    (fun acc d => match d df with
      | Except.ok signals => acc ++ signals
      | Except.error _ => acc)
    []

/-- The timeframe stamping of SignalAggregator.detect:
`object.__setattr__(signal, "timeframe", self.timeframe)` replaces exactly
the timeframe field. -/
def setTimeframe (tf : String) (s : Signal) : Signal := { s with timeframe := tf }

/-- SignalAggregator.detect: run detectors, stamp timeframes, deduplicate,
sort by strength then (stably, over the whole list) by descending
confidence, and build the result. -/
def detect {α : Type} (timeframe : String)
    (detectors : List (α → Except String (List Signal))) (df : α) : AggregationResult :=
  let all_signals := collectSignals detectors df
  let stamped := all_signals.map (setTimeframe timeframe)
  let unique_signals := deduplicate stamped
  let duplicates_removed := stamped.length - unique_signals.length
  let sorted_signals :=
    SignalSorter.by_confidence (SignalSorter.by_strength unique_signals) false
  buildResult sorted_signals duplicates_removed

end SignalAggregator

/-! ## Contradiction resolution (src/signals/validator.py, ContradictionDetector) -/

namespace ContradictionDetector

/-- Membership in ContradictionDetector.EXCLUSIVE_CATEGORIES. -/
def isExclusive (category : String) : Bool :=
  category == "MA_CROSS" || category == "MACD" || category == "PRICE_ACTION"

/-- Membership of index `i` (holding signal `s`) in the `to_remove` set of
resolve_contradictions: detect_contradictions enumerates every
(bullish, bearish) pair inside each exclusive category, and for each pair the
member with lower confidence is removed (the bearish one on a confidence
tie, since `>=` keeps the bullish side). -/
def removed (il : List (ℕ × Signal)) (s : Signal) : Bool :=
  (s.is_bullish && il.any fun q =>
      q.2.is_bearish && q.2.category == s.category && isExclusive s.category
        && decide (s.confidence < q.2.confidence))
  || (s.is_bearish && il.any fun q =>
      q.2.is_bullish && q.2.category == s.category && isExclusive s.category
        && decide (s.confidence ≤ q.2.confidence))

/-- The surviving `(index, signal)` entries of resolve_contradictions. -/
def keptEntries (signals : List Signal) : List (ℕ × Signal) :=
  signals.enum.filter fun p => !removed signals.enum p.2

/-- ContradictionDetector.resolve_contradictions with the default
`remove_lower_confidence` resolution (the early return when no
contradictions exist coincides with filtering by an empty removal set). -/
def resolve_contradictions (signals : List Signal) : List Signal :=
  (keptEntries signals).map Prod.snd

end ContradictionDetector

/-! ## Quality scoring (src/signals/validator.py, QualityScorer) -/

namespace QualityScorer

/-- Python truthiness of the Optional[str] trading_implication. -/
def implicationTruthy : Option String → Bool
  | none => false
  | some t => !(t == "")

/-- The three score boosts of QualityScorer.score_signal, before the neutral
penalty branch. -/
def scoreBoosted (s : Signal) : ℚ :=
  let score := s.confidence
  let score :=
    if (SignalStrength.is_bullish s.strength || SignalStrength.is_bearish s.strength)
        && (strContains s.strength "STRONG" || strContains s.strength "EXTREME")
    then min 1 (score + 1/10) else score
  let score := if s.details.isEmpty then score else min 1 (score + 1/20)
  let score := if implicationTruthy s.trading_implication then min 1 (score + 1/20) else score
  score

/-- QualityScorer.score_signal. -/
def score_signal (s : Signal) : ℚ :=
  if s.is_neutral then max 0 (scoreBoosted s - 1/10) else scoreBoosted s

/-- QualityScorer.score_batch. -/
def score_batch (signals : List Signal) : List (Signal × ℚ) :=
  signals.map fun s => (s, score_signal s)

/-- QualityScorer.filter_by_quality. -/
def filter_by_quality (signals : List Signal) (min_quality : ℚ) : List Signal :=
  ((score_batch signals).filter fun p => decide (min_quality ≤ p.2)).map Prod.fst

end QualityScorer

/-! ## MA crossover detector (src/signals/ma_signals.py)

A pandas row is modelled as an association list from column names to
`Option ℚ` cells; `none` is the `_safe_float` outcome for NaN / inf cells.
The `datetime.now()` default-factory timestamp is injected as the explicit
clock argument `now`. -/

def Row : Type := List (String × Option ℚ)

def getCell (r : Row) (col : String) : Option ℚ :=
  match r.find? (fun p => p.1 == col) with
  | some p => p.2
  | none => none

namespace MovingAverageCrossoverDetector

/-- The bullish crossover signal literal of
MovingAverageCrossoverDetector.detect. -/
def bullSignal (fast slow : ℕ) (fast_curr : ℚ) (now : ℕ) : Signal :=
  { name := toString fast ++ "/" ++ toString slow ++ " MA BULL CROSS"
    category := "MA_CROSS"
    strength := "BULLISH"
    description := toString fast ++ " MA crossed above " ++ toString slow ++ " MA"
    timeframe := "unknown"
    value := some fast_curr
    confidence := 7/10
    timestamp := now
    indicator_name := some "SMA"
    details := []
    trading_implication := some "Uptrend forming; consider long entries" }

/-- The bearish crossover signal literal of
MovingAverageCrossoverDetector.detect. -/
def bearSignal (fast slow : ℕ) (fast_curr : ℚ) (now : ℕ) : Signal :=
  { name := toString fast ++ "/" ++ toString slow ++ " MA BEAR CROSS"
    category := "MA_CROSS"
    strength := "BEARISH"
    description := toString fast ++ " MA crossed below " ++ toString slow ++ " MA"
    timeframe := "unknown"
    value := some fast_curr
    confidence := 7/10
    timestamp := now
    indicator_name := some "SMA"
    details := []
    trading_implication := some "Downtrend forming; consider short entries or exits" }

/-- MovingAverageCrossoverDetector.detect: reads the SMA columns of the last
two rows; when all four values are defined, emits the bullish signal on a
`<=` to `>` flip, the bearish signal on the `>=` to `<` flip, and nothing
otherwise. -/
def detect (fast slow : ℕ) (df : List Row) (now : ℕ) : List Signal :=
  if df.length < 2 then []
  else
    match df.getLast?, df.get? (df.length - 2) with
    | some current, some previous =>
      let fast_col := "SMA_" ++ toString fast
      let slow_col := "SMA_" ++ toString slow
      match getCell current fast_col, getCell current slow_col,
            getCell previous fast_col, getCell previous slow_col with
      | some fast_curr, some slow_curr, some fast_prev, some slow_prev =>
        if fast_prev ≤ slow_prev ∧ slow_curr < fast_curr then
          [bullSignal fast slow fast_curr now]
        else if slow_prev ≤ fast_prev ∧ fast_curr < slow_curr then
          [bearSignal fast slow fast_curr now]
        else []
      | _, _, _, _ => []
    | _, _ => []

end MovingAverageCrossoverDetector

/-! ## RSI (src/momentum-signals.py, RelativeStrengthIndex.calculate)

The pandas pipeline is embedded over exact rationals, with the IEEE special
values the code relies on made explicit: with a full window,
`rs = avg_gain / avg_loss` is +inf when `avg_loss = 0 < avg_gain` (so
`100 - 100/(1+rs)` is exactly 100) and NaN when both averages are 0; with an
incomplete window (`min_periods = period`) the rolling means are NaN.  A
cell value of `none` is a NaN (missing) cell of the output column. -/

namespace RelativeStrengthIndex

/-- The gain series: `delta.where(delta > 0, 0)`, where `delta = Close.diff()`
and the leading NaN of `diff` is replaced by 0 (NaN > 0 is false). -/
def gain (close : List ℚ) (i : ℕ) : ℚ :=
  if i = 0 then 0 else max (close.getD i 0 - close.getD (i - 1) 0) 0

/-- The loss series: `-delta.where(delta < 0, 0)` with the same NaN handling. -/
def loss (close : List ℚ) (i : ℕ) : ℚ :=
  if i = 0 then 0 else max (close.getD (i - 1) 0 - close.getD i 0) 0

/-- Rolling mean of the gain series over the `period` bars ending at `i`
(meaningful when `period ≤ i + 1`, the `min_periods` condition). -/
def avgGain (close : List ℚ) (period i : ℕ) : ℚ :=
  ((List.range period).foldl (fun acc k => acc + gain close (i + 1 - period + k)) 0) / period

/-- Rolling mean of the loss series over the `period` bars ending at `i`. -/
def avgLoss (close : List ℚ) (period i : ℕ) : ℚ :=
  ((List.range period).foldl (fun acc k => acc + loss close (i + 1 - period + k)) 0) / period

/-- The `RSI_{period}` output cell at bar `i`:
`100 - 100/(1 + avg_gain/avg_loss)` under float semantics.  `none` is NaN:
the warm-up rows (window shorter than `min_periods = period`) and the rows
where `avg_gain = avg_loss = 0` (a NaN ratio `0.0/0.0`).  When
`avg_loss = 0 < avg_gain` the ratio is +inf and the cell is exactly 100. -/
def rsiCell (close : List ℚ) (period i : ℕ) : Option ℚ :=
  if i + 1 < period then none
  else
    let g := avgGain close period i
    let l := avgLoss close period i
    if l = 0 then (if g = 0 then none else some 100)
    else some (100 - 100 / (1 + g / l))

end RelativeStrengthIndex

/-! ## Fibonacci volume confirmation (src/fibonacci.py,
_detect_volume_confirmation)

Levels are the `levels` dict: an insertion-ordered association list from
level keys to (name, price); only the price and name are consulted.  Python's
`min(..., key=...)` returns the first minimiser in iteration order.  A zero
`close` makes `price_diff` an IEEE inf or NaN, so the tolerance comparison is
false and no signal is emitted; the embedding makes that case explicit. -/

namespace FibonacciVolume

/-- One entry of the `levels` dict: display name and price. -/
structure Level where
  name : String
  price : ℚ
deriving DecidableEq, Repr

/-- Python's `min(levels.items(), key=lambda x: abs(price - close))`:
first minimiser wins. -/
def nearestLevel (close : ℚ) (head : Level) (rest : List Level) : Level :=
  rest.foldl (fun best x => if |x.price - close| < |best.price - close| then x else best) head

/-- The emitted volume-confirmation signal literal. -/
def volumeSignal (level : Level) (vol_ratio : ℚ) (now : ℕ) : Signal :=
  { name := "FIB " ++ level.name ++ " + HIGH VOLUME"
    category := "FIBONACCI"
    strength := "SIGNIFICANT"
    description := "Fibonacci " ++ level.name ++ " confirmed with high volume"
    timeframe := "unknown"
    value := some level.price
    confidence := 4/5
    timestamp := now
    indicator_name := some "Fibonacci"
    details := [("volume_ratio", toString vol_ratio)]
    trading_implication := some "Strong confirmation of Fibonacci level" }

/-- The mean of the trailing 20 volumes: `df["Volume"].iloc[-20:].mean()`. -/
def avgVol (volumes : List ℚ) : ℚ :=
  ((volumes.drop (volumes.length - 20)).foldl (· + ·) 0) / 20

/-- _detect_volume_confirmation: requires at least 20 bars, takes the last
bar's volume and the mean of the trailing 20 volumes, and emits a signal only
when `vol_ratio > 1.5` strictly and the last price is within tolerance of the
nearest level. -/
def detect (volumes : List ℚ) (close : ℚ) (levels : List Level)
    (tolerance : ℚ) (now : ℕ) : List Signal :=
  if volumes.length < 20 then []
  else
    match volumes.getLast?, levels with
    | some vol, head :: rest =>
      let avg_vol := avgVol volumes
      if avg_vol = 0 then []
      else
        let vol_ratio := vol / avg_vol
        if 3/2 < vol_ratio then
          let nearest := nearestLevel close head rest
          if close ≠ 0 ∧ |close - nearest.price| / close < tolerance then
            [volumeSignal nearest vol_ratio now]
          else []
        else []
    | _, _ => []

end FibonacciVolume

/-! ## Indicator framework (src/indicators/base.py)

The frame is abstracted to its column set and row count, which is all
IndicatorBase.execute's validation inspects; an indicator's `calculate` is a
function that may fail (any exception it raises is wrapped into a
SignalDetectionError by `execute`, so the error type covers exactly the two
exception classes IndicatorGroup catches). -/

structure Table where
  columns : List String
  nrows : ℕ
deriving DecidableEq, Repr

inductive IndicatorError where
  | insufficientData (required actual : ℕ) : IndicatorError
  | signalDetection (msg : String) : IndicatorError
deriving DecidableEq, Repr

structure Indicator where
  name : String
  key : String
  min_bars_required : ℕ
  required_columns : List String
  output_columns : List String
  calculate : Table → Except IndicatorError Table

namespace Indicator

/-- IndicatorBase.validate: empty frame, missing required columns, or too few
bars each raise. -/
def validate (ind : Indicator) (df : Table) : Except IndicatorError Unit :=
  if df.nrows = 0 then
    Except.error (IndicatorError.signalDetection ("empty data for " ++ ind.name))
  else if ind.required_columns.any (fun c => !df.columns.contains c) then
    Except.error (IndicatorError.signalDetection ("missing columns for " ++ ind.name))
  else if df.nrows < ind.min_bars_required then
    Except.error (IndicatorError.insufficientData ind.min_bars_required df.nrows)
  else Except.ok ()

/-- IndicatorBase.execute: validate, calculate, then verify every declared
output column was created; all failures propagate to the caller. -/
def execute (ind : Indicator) (df : Table) : Except IndicatorError Table := do
  let _ ← ind.validate df
  let result ← ind.calculate df
  if ind.output_columns.any (fun c => !result.columns.contains c) then
    Except.error (IndicatorError.signalDetection (ind.name ++ " failed to create column"))
  else Except.ok result

end Indicator

namespace IndicatorGroup

/-- The loop body of IndicatorGroup.execute: the `try` block applies the
indicator to the accumulated frame, and the `except` clause for
InsufficientDataError / SignalDetectionError keeps the frame unchanged. -/
def step (result : Table) (ind : Indicator) : Table :=
  match ind.execute result with
  | Except.ok r => r
  | Except.error _ => result

/-- IndicatorGroup.execute: run each indicator on the accumulated frame; a
failing indicator is caught, logged and skipped, keeping the frame
enriched so far. -/
def execute (indicators : List Indicator) (df : Table) : Table :=
  indicators.foldl step df

end IndicatorGroup

/-! ## Concrete fixtures used by witnesses and counterexamples -/

/-- The MACD bullish signal of the claim's scenario (confidence 0.9). -/
def macdBullSignal : Signal :=
  { name := "MACD BULL CROSS"
    category := "MACD"
    strength := "BULLISH"
    description := "MACD crossed above signal line"
    timeframe := "unknown"
    value := none
    confidence := 9/10
    timestamp := 0
    indicator_name := some "MACD"
    details := []
    trading_implication := none }

/-- The MACD bearish signal of the claim's scenario (confidence 0.6). -/
def macdBearSignal : Signal :=
  { name := "MACD BEAR CROSS"
    category := "MACD"
    strength := "BEARISH"
    description := "MACD crossed below signal line"
    timeframe := "unknown"
    value := none
    confidence := 3/5
    timestamp := 0
    indicator_name := some "MACD"
    details := []
    trading_implication := none }

/-- Volume series used to exercise C9: trailing-20 mean 2, final volume 3
(exactly 1.5 times the mean). -/
def demoVolumes : List ℚ := List.replicate 18 2 ++ [1, 3]

/-- A sample OHLCV table with 10 rows, used to witness C7. -/
def sampleTable : Table :=
  { columns := ["Open", "High", "Low", "Close", "Volume"]
    nrows := 10 }

/-- An indicator that succeeds on `sampleTable`, adding its output column. -/
def okIndicator : Indicator :=
  { name := "ok"
    key := "ok"
    min_bars_required := 1
    required_columns := ["Close"]
    output_columns := ["SMA_10"]
    calculate := fun t => Except.ok ({ t with columns := t.columns ++ ["SMA_10"] }) }

/-- An indicator whose minimum-bar requirement exceeds `sampleTable`, so its
direct execution raises InsufficientDataError. -/
def failingIndicator : Indicator :=
  { name := "needs100"
    key := "n100"
    min_bars_required := 100
    required_columns := ["Close"]
    output_columns := ["X"]
    calculate := fun t => Except.ok t }

/-- An EXTREME BULLISH signal with low confidence, for the C1 counterexample. -/
def extremeBullLowConf : Signal :=
  { name := "MA RIBBON ALIGNED"
    category := "MA_RIBBON"
    strength := "EXTREME BULLISH"
    description := "ribbon"
    timeframe := "unknown"
    value := none
    confidence := 1/2
    timestamp := 0
    indicator_name := some "SMA"
    details := []
    trading_implication := none }

/-- A plain BEARISH signal with high confidence, for the C1 counterexample. -/
def bearishHighConf : Signal :=
  { name := "RSI OVERBOUGHT"
    category := "RSI"
    strength := "BEARISH"
    description := "rsi"
    timeframe := "unknown"
    value := none
    confidence := 9/10
    timestamp := 0
    indicator_name := some "RSI"
    details := []
    trading_implication := none }

/-- The ordering that the aggregator's two stable sorts actually produce:
descending confidence first, strength rank ascending within equal
confidence. -/
def SignalSorter.lexGe (a b : Signal) : Prop :=
  b.confidence < a.confidence
    ∨ (a.confidence = b.confidence
      ∧ SignalSorter.strengthRank a.strength ≤ SignalSorter.strengthRank b.strength)

/-! ## Lemmas about deduplication -/

namespace SignalAggregator

lemma mem_of_mem_dedupAux {s : Signal} :
    ∀ (l : List Signal) (seen : List String), s ∈ dedupAux seen l → s ∈ l := by
  intro l
  induction l with
  | nil => intro seen h; simp [dedupAux] at h
  | cons x rest ih =>
    intro seen h
    by_cases hx : signature x ∈ seen
    · simp only [dedupAux, if_pos hx] at h
      exact List.mem_cons_of_mem x (ih seen h)
    · simp only [dedupAux, if_neg hx, List.mem_cons] at h
      rcases h with h | h
      · exact h ▸ List.mem_cons_self x rest
      · exact List.mem_cons_of_mem x (ih _ h)

lemma signature_not_seen_of_mem_dedupAux {s : Signal} :
    ∀ (l : List Signal) (seen : List String), s ∈ dedupAux seen l → signature s ∉ seen := by
  intro l
  induction l with
  | nil => intro seen h; simp [dedupAux] at h
  | cons x rest ih =>
    intro seen h
    by_cases hx : signature x ∈ seen
    · simp only [dedupAux, if_pos hx] at h
      exact ih seen h
    · simp only [dedupAux, if_neg hx, List.mem_cons] at h
      rcases h with h | h
      · exact h ▸ hx
      · intro hmem
        exact ih _ h (List.mem_cons_of_mem _ hmem)

lemma dedupAux_pairwise :
    ∀ (l : List Signal) (seen : List String),
      (dedupAux seen l).Pairwise (fun a b => signature a ≠ signature b) := by
  intro l
  induction l with
  | nil => intro seen; simp [dedupAux]
  | cons x rest ih =>
    intro seen
    by_cases hx : signature x ∈ seen
    · simpa only [dedupAux, if_pos hx] using ih seen
    · simp only [dedupAux, if_neg hx]
      refine List.Pairwise.cons ?_ (ih _)
      intro t ht
      have hns := signature_not_seen_of_mem_dedupAux rest _ ht
      intro heq
      apply hns
      rw [← heq]
      exact List.mem_cons_self _ _

lemma dedupAux_eq_self :
    ∀ (l : List Signal) (seen : List String),
      l.Pairwise (fun a b => signature a ≠ signature b) →
      (∀ s ∈ l, signature s ∉ seen) → dedupAux seen l = l := by
  intro l
  induction l with
  | nil => intro seen _ _; rfl
  | cons x rest ih =>
    intro seen hpw hseen
    have hx : signature x ∉ seen := hseen x (List.mem_cons_self x rest)
    simp only [dedupAux, if_neg hx]
    congr 1
    refine ih _ hpw.of_cons ?_
    intro t ht
    simp only [List.mem_cons]
    rintro (heq | hmem)
    · exact (List.rel_of_pairwise_cons hpw ht) heq.symm
    · exact hseen t (List.mem_cons_of_mem x ht) hmem

end SignalAggregator

/-- C5: deduplication is idempotent: applying the aggregator's dedup step
(signature = category, strength, first 20 characters of the name; first
occurrence wins) to its own output returns that output unchanged. -/
theorem deduplicate_idempotent (signals : List Signal) :
    SignalAggregator.deduplicate (SignalAggregator.deduplicate signals)
      = SignalAggregator.deduplicate signals := by
  apply SignalAggregator.dedupAux_eq_self
  · exact SignalAggregator.dedupAux_pairwise signals []
  · intro s _
    exact List.not_mem_nil _

/-- C6: the quality filter is monotonic in its threshold: for thresholds
a ≤ b, the signals retained at min_quality = b form a sublist of those
retained at min_quality = a, so raising min_quality never increases the
retained-signal count. -/
theorem filter_by_quality_monotone (signals : List Signal) (a b : ℚ) (h : a ≤ b) :
    (QualityScorer.filter_by_quality signals b).Sublist
        (QualityScorer.filter_by_quality signals a)
      ∧ (QualityScorer.filter_by_quality signals b).length
          ≤ (QualityScorer.filter_by_quality signals a).length := by
  have hsub : (QualityScorer.filter_by_quality signals b).Sublist
      (QualityScorer.filter_by_quality signals a) := by
    unfold QualityScorer.filter_by_quality
    refine List.Sublist.map Prod.fst ?_
    refine List.monotone_filter_right _ ?_
    intro p hp
    simp only [decide_eq_true_eq] at hp ⊢
    exact le_trans h hp
  exact ⟨hsub, hsub.length_le⟩

/-- C6 witness: the monotonicity theorem at thresholds 1/2 ≤ 7/10 on the two
concrete MACD signals. -/
theorem filter_by_quality_monotone_witness :
    (QualityScorer.filter_by_quality [macdBullSignal, macdBearSignal] (7/10)).Sublist
        (QualityScorer.filter_by_quality [macdBullSignal, macdBearSignal] (1/2))
      ∧ (QualityScorer.filter_by_quality [macdBullSignal, macdBearSignal] (7/10)).length
          ≤ (QualityScorer.filter_by_quality [macdBullSignal, macdBearSignal] (1/2)).length :=
  filter_by_quality_monotone [macdBullSignal, macdBearSignal] (1/2) (7/10) (by norm_num)

/-- C7: a failing indicator inside an IndicatorGroup is caught and the group
continues with the remaining indicators on the table enriched so far,
while executing the same failing indicator directly returns the error to
the caller. -/
theorem indicator_group_catches_failure (pre post : List Indicator) (ind : Indicator)
    (df : Table) (e : IndicatorError)
    (h : ind.execute (IndicatorGroup.execute pre df) = Except.error e) :
    IndicatorGroup.execute (pre ++ ind :: post) df
        = IndicatorGroup.execute post (IndicatorGroup.execute pre df)
      ∧ ind.execute (IndicatorGroup.execute pre df) = Except.error e := by
  constructor
  · have hstep : IndicatorGroup.step (IndicatorGroup.execute pre df) ind
        = IndicatorGroup.execute pre df := by
      simp only [IndicatorGroup.step, h]
    show List.foldl IndicatorGroup.step df (pre ++ ind :: post)
        = IndicatorGroup.execute post (IndicatorGroup.execute pre df)
    rw [List.foldl_append, List.foldl_cons]
    show List.foldl IndicatorGroup.step
        (IndicatorGroup.step (IndicatorGroup.execute pre df) ind) post
      = IndicatorGroup.execute post (IndicatorGroup.execute pre df)
    rw [hstep]
    rfl
  · exact h

/-- C7 witness: on a 10-row table, a group [failing, ok] skips the failing
indicator and still applies the ok one, while the failing indicator alone
returns InsufficientDataError. -/
theorem indicator_group_catches_failure_witness :
    IndicatorGroup.execute ([] ++ failingIndicator :: [okIndicator]) sampleTable
        = IndicatorGroup.execute [okIndicator] (IndicatorGroup.execute [] sampleTable)
      ∧ failingIndicator.execute (IndicatorGroup.execute [] sampleTable)
          = Except.error (IndicatorError.insufficientData 100 10) :=
  indicator_group_catches_failure [] [okIndicator] failingIndicator sampleTable
    (IndicatorError.insufficientData 100 10) (by rfl)

/-- C4: on a table of at least two rows whose last two rows carry defined
fast-MA and slow-MA values, the MA crossover detector emits exactly the one
bullish MA_CROSS signal (strength BULLISH, confidence 0.7) when the fast MA
was ≤ the slow MA on the prior bar and strictly greater on the current bar,
exactly the one bearish signal on the mirror condition, and no signal when
the relationship does not flip. -/
theorem ma_crossover_detect_spec (fast slow : ℕ) (df : List Row) (now : ℕ)
    (current previous : Row) (fc sc fp sp : ℚ)
    (h2 : 2 ≤ df.length)
    (hcur : df.getLast? = some current)
    (hprev : df.get? (df.length - 2) = some previous)
    (hfc : getCell current ("SMA_" ++ toString fast) = some fc)
    (hsc : getCell current ("SMA_" ++ toString slow) = some sc)
    (hfp : getCell previous ("SMA_" ++ toString fast) = some fp)
    (hsp : getCell previous ("SMA_" ++ toString slow) = some sp) :
    (fp ≤ sp ∧ sc < fc →
        MovingAverageCrossoverDetector.detect fast slow df now
          = [MovingAverageCrossoverDetector.bullSignal fast slow fc now])
      ∧ (sp ≤ fp ∧ fc < sc →
        MovingAverageCrossoverDetector.detect fast slow df now
          = [MovingAverageCrossoverDetector.bearSignal fast slow fc now])
      ∧ (¬(fp ≤ sp ∧ sc < fc) → ¬(sp ≤ fp ∧ fc < sc) →
        MovingAverageCrossoverDetector.detect fast slow df now = []) := by
  have hlen : ¬ df.length < 2 := by omega
  simp only [MovingAverageCrossoverDetector.detect, if_neg hlen, hcur, hprev,
    hfc, hsc, hfp, hsp]
  refine ⟨?_, ?_, ?_⟩
  · intro hb
    rw [if_pos hb]
  · intro hb
    rw [if_neg ?_, if_pos hb]
    rintro ⟨_, hlt⟩
    exact absurd hb.2 (not_lt.mpr hlt.le)
  · intro h1 h2
    rw [if_neg h1, if_neg h2]

/-- C4 witness: with SMA_10 going from 1 (below SMA_20 = 2) to 3 (above
SMA_20 = 2), the detector emits exactly the bullish crossover signal. -/
theorem ma_crossover_detect_spec_witness :
    (((1:ℚ) ≤ 2 ∧ (2:ℚ) < 3 →
        MovingAverageCrossoverDetector.detect 10 20
            [[("SMA_10", some 1), ("SMA_20", some 2)],
              [("SMA_10", some 3), ("SMA_20", some 2)]] 7
          = [MovingAverageCrossoverDetector.bullSignal 10 20 3 7])
      ∧ ((2:ℚ) ≤ 1 ∧ (3:ℚ) < 2 →
        MovingAverageCrossoverDetector.detect 10 20
            [[("SMA_10", some 1), ("SMA_20", some 2)],
              [("SMA_10", some 3), ("SMA_20", some 2)]] 7
          = [MovingAverageCrossoverDetector.bearSignal 10 20 3 7])
      ∧ (¬((1:ℚ) ≤ 2 ∧ (2:ℚ) < 3) → ¬((2:ℚ) ≤ 1 ∧ (3:ℚ) < 2) →
        MovingAverageCrossoverDetector.detect 10 20
            [[("SMA_10", some 1), ("SMA_20", some 2)],
              [("SMA_10", some 3), ("SMA_20", some 2)]] 7 = []))
      ∧ (1:ℚ) ≤ 2 ∧ (2:ℚ) < 3 :=
  ⟨ma_crossover_detect_spec 10 20
      [[("SMA_10", some 1), ("SMA_20", some 2)],
        [("SMA_10", some 3), ("SMA_20", some 2)]] 7
      [("SMA_10", some 3), ("SMA_20", some 2)]
      [("SMA_10", some 1), ("SMA_20", some 2)]
      3 2 1 2 (by norm_num) rfl rfl rfl rfl rfl rfl,
    by norm_num, by norm_num⟩

/-- C2 (amended): with a full window, at a bar where the trailing average of
down-moves is zero the RSI cell is missing only when the trailing average of
up-moves is also zero; when the average gain is nonzero the division
semantics give RS = +inf and the cell is the defined number 100. -/
theorem rsi_avg_loss_zero (close : List ℚ) (period i : ℕ)
    (_hinrange : i < close.length) (hwin : period ≤ i + 1)
    (hl : RelativeStrengthIndex.avgLoss close period i = 0) :
    RelativeStrengthIndex.rsiCell close period i
      = if RelativeStrengthIndex.avgGain close period i = 0 then none else some 100 := by
  have hnw : ¬ i + 1 < period := by omega
  simp only [RelativeStrengthIndex.rsiCell, if_neg hnw, hl, if_pos rfl, if_true]

unseal Rat.add Rat.sub Rat.mul Rat.inv in
/-- C2 witness: the amended theorem at close series [1, 2, 3] with period 2
and bar 2 (average loss 0, average gain 1, RSI = 100). -/
theorem rsi_avg_loss_zero_witness :
    RelativeStrengthIndex.rsiCell [1, 2, 3] 2 2
      = if RelativeStrengthIndex.avgGain [1, 2, 3] 2 2 = 0 then none else some 100 :=
  rsi_avg_loss_zero [1, 2, 3] 2 2 (by norm_num) (by norm_num) (by decide)

unseal Rat.add Rat.sub Rat.mul Rat.inv in
/-- C2 counterexample: for the strictly rising closes [1, 2, 3] with period
2, the trailing average loss at the final bar is zero, yet the RSI cell is
the defined value 100 and not a missing value, contradicting the claim that
the output is undefined whenever avgLoss = 0. -/
theorem rsi_claim_counterexample :
    RelativeStrengthIndex.avgLoss [1, 2, 3] 2 2 = 0
      ∧ RelativeStrengthIndex.rsiCell [1, 2, 3] 2 2 = some 100
      ∧ RelativeStrengthIndex.rsiCell [1, 2, 3] 2 2 ≠ none := by
  refine ⟨by decide, by decide, by decide⟩

/-- C9 (amended): with at least 20 bars, a positive trailing-20-bar mean
volume, and the last price within the tolerance band of the nearest
Fibonacci level, the volume-confirmed-level signal is emitted exactly when
the last bar's volume is strictly greater than 1.5 times the mean volume;
a volume exactly equal to 1.5 times the average is NOT confirmed. -/
theorem fib_volume_confirmation (volumes : List ℚ) (vol close tolerance : ℚ)
    (head : FibonacciVolume.Level) (rest : List FibonacciVolume.Level) (now : ℕ)
    (h20 : 20 ≤ volumes.length)
    (hlast : volumes.getLast? = some vol)
    (hpos : 0 < FibonacciVolume.avgVol volumes)
    (hnear : close ≠ 0
      ∧ |close - (FibonacciVolume.nearestLevel close head rest).price| / close < tolerance) :
    (3/2 * FibonacciVolume.avgVol volumes < vol →
        FibonacciVolume.detect volumes close (head :: rest) tolerance now
          = [FibonacciVolume.volumeSignal (FibonacciVolume.nearestLevel close head rest)
              (vol / FibonacciVolume.avgVol volumes) now])
      ∧ (vol ≤ 3/2 * FibonacciVolume.avgVol volumes →
        FibonacciVolume.detect volumes close (head :: rest) tolerance now = []) := by
  have hlen : ¬ volumes.length < 20 := by omega
  have hne : FibonacciVolume.avgVol volumes ≠ 0 := ne_of_gt hpos
  have hdet : FibonacciVolume.detect volumes close (head :: rest) tolerance now
      = if 3 / 2 < vol / FibonacciVolume.avgVol volumes then
          if close ≠ 0
              ∧ |close - (FibonacciVolume.nearestLevel close head rest).price| / close
                  < tolerance then
            [FibonacciVolume.volumeSignal (FibonacciVolume.nearestLevel close head rest)
              (vol / FibonacciVolume.avgVol volumes) now]
          else []
        else [] := by
    unfold FibonacciVolume.detect
    rw [if_neg hlen, hlast]
    show (if FibonacciVolume.avgVol volumes = 0 then ([] : List Signal)
        else if 3 / 2 < vol / FibonacciVolume.avgVol volumes then
          if close ≠ 0
              ∧ |close - (FibonacciVolume.nearestLevel close head rest).price| / close
                  < tolerance then
            [FibonacciVolume.volumeSignal (FibonacciVolume.nearestLevel close head rest)
              (vol / FibonacciVolume.avgVol volumes) now]
          else []
        else []) = _
    rw [if_neg hne]
  rw [hdet]
  constructor
  · intro hgt
    have hratio : 3/2 < vol / FibonacciVolume.avgVol volumes := by
      rw [lt_div_iff₀ hpos]
      exact hgt
    rw [if_pos hratio, if_pos hnear]
  · intro hle
    have hratio : ¬ (3/2 < vol / FibonacciVolume.avgVol volumes) := by
      rw [not_lt, div_le_iff₀ hpos]
      linarith
    rw [if_neg hratio]

unseal Rat.add Rat.sub Rat.mul Rat.inv in
/-- C9 witness: the amended theorem instantiated at `demoVolumes` with the
single level priced at the close, so the signal appears exactly when the
final volume strictly exceeds 1.5 times the mean. -/
theorem fib_volume_confirmation_witness :
    ((3:ℚ)/2 * FibonacciVolume.avgVol demoVolumes < 3 →
        FibonacciVolume.detect demoVolumes 10 [⟨"61.8%", 10⟩] (1/100) 0
          = [FibonacciVolume.volumeSignal (FibonacciVolume.nearestLevel 10 ⟨"61.8%", 10⟩ [])
              (3 / FibonacciVolume.avgVol demoVolumes) 0])
      ∧ ((3:ℚ) ≤ 3/2 * FibonacciVolume.avgVol demoVolumes →
        FibonacciVolume.detect demoVolumes 10 [⟨"61.8%", 10⟩] (1/100) 0 = []) :=
  fib_volume_confirmation demoVolumes 3 10 (1/100) ⟨"61.8%", 10⟩ [] 0
    (by decide) (by decide) (by decide) (by decide)

unseal Rat.add Rat.sub Rat.mul Rat.inv in
/-- C9 counterexample: on `demoVolumes` the final volume 3 equals exactly
1.5 times the trailing-20-bar mean 2, the last price sits exactly on the
nearest Fibonacci level (well inside tolerance), yet no signal is emitted —
contradicting the claim that a volume equal to 1.5 times the average is
confirmed. -/
theorem fib_volume_claim_counterexample :
    demoVolumes.getLast? = some 3
      ∧ FibonacciVolume.avgVol demoVolumes = 2
      ∧ ((10:ℚ) ≠ 0 ∧ |(10:ℚ) - 10| / 10 < 1/100)
      ∧ (3:ℚ) = 3/2 * FibonacciVolume.avgVol demoVolumes
      ∧ FibonacciVolume.detect demoVolumes 10 [⟨"61.8%", 10⟩] (1/100) 0 = [] := by
  refine ⟨by decide, by decide, by decide, by decide, by decide⟩

unseal Rat.add Rat.sub Rat.mul Rat.inv in
/-- C3: for any conflicting (bullish, bearish) pair inside a
direction-exclusive category, contradiction resolution discards the
lower-confidence member (the bearish one on a tie, matching the code's >=
comparison); in particular, a list of one MACD bullish signal with
confidence 0.9 and one MACD bearish signal with confidence 0.6 resolves to
exactly the bullish signal. -/
theorem resolve_contradictions_pair (l : List Signal) (i j : ℕ) (b r : Signal)
    (hi : l[i]? = some b) (hj : l[j]? = some r)
    (hexcl : ContradictionDetector.isExclusive b.category = true)
    (hcat : r.category = b.category)
    (hb : b.is_bullish = true)
    (hr : r.is_bearish = true) :
    (r.confidence ≤ b.confidence →
        ∀ p ∈ ContradictionDetector.keptEntries l, p.1 ≠ j)
      ∧ (b.confidence < r.confidence →
        ∀ p ∈ ContradictionDetector.keptEntries l, p.1 ≠ i)
      ∧ ContradictionDetector.resolve_contradictions [macdBullSignal, macdBearSignal]
          = [macdBullSignal] := by
  have hmem_i : (i, b) ∈ l.enum := List.mk_mem_enum_iff_getElem?.mpr hi
  have hmem_j : (j, r) ∈ l.enum := List.mk_mem_enum_iff_getElem?.mpr hj
  refine ⟨?_, ?_, by decide⟩
  · intro hconf p hp hpj
    unfold ContradictionDetector.keptEntries at hp
    rw [List.mem_filter] at hp
    obtain ⟨hpil, hkeep⟩ := hp
    have hget : l[p.1]? = some p.2 := by
      have := List.mk_mem_enum_iff_getElem?.mp (show (p.1, p.2) ∈ l.enum from hpil)
      simpa using this
    rw [hpj, hj] at hget
    have hpr : p.2 = r := by
      injection hget with h
      exact h.symm
    have hrem : ContradictionDetector.removed l.enum r = true := by
      unfold ContradictionDetector.removed
      rw [Bool.or_eq_true]
      right
      rw [Bool.and_eq_true]
      refine ⟨hr, List.any_eq_true.mpr ⟨(i, b), hmem_i, ?_⟩⟩
      simp [hb, hcat, hexcl, hconf]
    rw [hpr, hrem] at hkeep
    simp at hkeep
  · intro hconf p hp hpi
    unfold ContradictionDetector.keptEntries at hp
    rw [List.mem_filter] at hp
    obtain ⟨hpil, hkeep⟩ := hp
    have hget : l[p.1]? = some p.2 := by
      have := List.mk_mem_enum_iff_getElem?.mp (show (p.1, p.2) ∈ l.enum from hpil)
      simpa using this
    rw [hpi, hi] at hget
    have hpb : p.2 = b := by
      injection hget with h
      exact h.symm
    have hrem : ContradictionDetector.removed l.enum b = true := by
      unfold ContradictionDetector.removed
      rw [Bool.or_eq_true]
      left
      rw [Bool.and_eq_true]
      refine ⟨hb, List.any_eq_true.mpr ⟨(j, r), hmem_j, ?_⟩⟩
      simp [hr, hcat, hexcl, hconf]
    rw [hpb, hrem] at hkeep
    simp at hkeep

unseal Rat.add Rat.sub Rat.mul Rat.inv in
/-- C3 witness: the pair theorem instantiated at the claim's scenario list
[MACD bullish 0.9, MACD bearish 0.6]. -/
theorem resolve_contradictions_pair_witness :
    (macdBearSignal.confidence ≤ macdBullSignal.confidence →
        ∀ p ∈ ContradictionDetector.keptEntries [macdBullSignal, macdBearSignal], p.1 ≠ 1)
      ∧ (macdBullSignal.confidence < macdBearSignal.confidence →
        ∀ p ∈ ContradictionDetector.keptEntries [macdBullSignal, macdBearSignal], p.1 ≠ 0)
      ∧ ContradictionDetector.resolve_contradictions [macdBullSignal, macdBearSignal]
          = [macdBullSignal] :=
  resolve_contradictions_pair [macdBullSignal, macdBearSignal] 0 1
    macdBullSignal macdBearSignal (by decide) (by decide) (by decide) (by decide)
    (by decide) (by decide)

/-- C10: a signal is neutral exactly when its strength string is "NEUTRAL";
a signal whose strength is MODERATE, WEAK, SIGNIFICANT or TRENDING is
neither bullish nor bearish (so it falls into the aggregator's remainder
neutral_count) yet is not `is_neutral`, hence receives no -0.1 neutral
penalty from the quality scorer; and every built AggregationResult satisfies
neutral_count = signal_count - bullish_count - bearish_count. -/
theorem neutral_classification (s : Signal)
    (hs : s.strength = "MODERATE" ∨ s.strength = "WEAK" ∨ s.strength = "SIGNIFICANT"
      ∨ s.strength = "TRENDING") :
    (∀ t : Signal, t.is_neutral = true ↔ t.strength = "NEUTRAL")
      ∧ s.is_bullish = false
      ∧ s.is_bearish = false
      ∧ s.is_neutral = false
      ∧ QualityScorer.score_signal s = QualityScorer.scoreBoosted s
      ∧ (∀ (signals : List Signal) (d : ℕ),
          (SignalAggregator.buildResult signals d).neutral_count
            = (SignalAggregator.buildResult signals d).signal_count
              - (SignalAggregator.buildResult signals d).bullish_count
              - (SignalAggregator.buildResult signals d).bearish_count) := by
  have hbull : s.is_bullish = false := by
    unfold Signal.is_bullish
    rcases hs with h | h | h | h <;> rw [h] <;> decide
  have hbear : s.is_bearish = false := by
    unfold Signal.is_bearish
    rcases hs with h | h | h | h <;> rw [h] <;> decide
  have hneut : s.is_neutral = false := by
    unfold Signal.is_neutral
    rcases hs with h | h | h | h <;> rw [h] <;> decide
  refine ⟨?_, hbull, hbear, hneut, ?_, ?_⟩
  · intro t
    simp [Signal.is_neutral, SignalStrength.is_neutral]
  · unfold QualityScorer.score_signal
    rw [hneut]
    simp
  · intro signals d
    rfl

/-- C10 witness: the theorem instantiated at a concrete MODERATE signal. -/
theorem neutral_classification_witness :
    (∀ t : Signal, t.is_neutral = true ↔ t.strength = "NEUTRAL")
      ∧ (Signal.mk "FIB TIME ZONE 8" "FIBONACCI" "MODERATE" "time zone" "unknown"
          none (3/5) 0 (some "Fibonacci") [] none).is_bullish = false
      ∧ (Signal.mk "FIB TIME ZONE 8" "FIBONACCI" "MODERATE" "time zone" "unknown"
          none (3/5) 0 (some "Fibonacci") [] none).is_bearish = false
      ∧ (Signal.mk "FIB TIME ZONE 8" "FIBONACCI" "MODERATE" "time zone" "unknown"
          none (3/5) 0 (some "Fibonacci") [] none).is_neutral = false
      ∧ QualityScorer.score_signal (Signal.mk "FIB TIME ZONE 8" "FIBONACCI" "MODERATE"
            "time zone" "unknown" none (3/5) 0 (some "Fibonacci") [] none)
          = QualityScorer.scoreBoosted (Signal.mk "FIB TIME ZONE 8" "FIBONACCI" "MODERATE"
            "time zone" "unknown" none (3/5) 0 (some "Fibonacci") [] none)
      ∧ (∀ (signals : List Signal) (d : ℕ),
          (SignalAggregator.buildResult signals d).neutral_count
            = (SignalAggregator.buildResult signals d).signal_count
              - (SignalAggregator.buildResult signals d).bullish_count
              - (SignalAggregator.buildResult signals d).bearish_count) :=
  neutral_classification
    (Signal.mk "FIB TIME ZONE 8" "FIBONACCI" "MODERATE" "time zone" "unknown"
      none (3/5) 0 (some "Fibonacci") [] none)
    (Or.inl rfl)

/-- C8: every signal in an aggregation result carries the aggregator's
configured timeframe, and all its other fields are exactly those of a signal
collected from the detectors (the detectors construct the signals; the
aggregator's object.__setattr__ replaces only the timeframe field, and
deduplication plus sorting never alter a signal). -/
theorem aggregator_stamps_timeframe {α : Type} (tf : String)
    (detectors : List (α → Except String (List Signal))) (df : α) (s : Signal)
    (h : s ∈ (SignalAggregator.detect tf detectors df).signals) :
    s.timeframe = tf
      ∧ ∃ s0 ∈ SignalAggregator.collectSignals detectors df,
          s.name = s0.name ∧ s.category = s0.category ∧ s.strength = s0.strength
            ∧ s.description = s0.description ∧ s.value = s0.value
            ∧ s.confidence = s0.confidence ∧ s.timestamp = s0.timestamp
            ∧ s.indicator_name = s0.indicator_name ∧ s.details = s0.details
            ∧ s.trading_implication = s0.trading_implication := by
  replace h : s ∈ SignalSorter.by_confidence (SignalSorter.by_strength
      (SignalAggregator.deduplicate ((SignalAggregator.collectSignals detectors df).map
        (SignalAggregator.setTimeframe tf)))) false := h
  unfold SignalSorter.by_confidence at h
  rw [if_neg (by simp)] at h
  rw [List.mem_insertionSort] at h
  unfold SignalSorter.by_strength at h
  rw [List.mem_insertionSort] at h
  unfold SignalAggregator.deduplicate at h
  have h2 := SignalAggregator.mem_of_mem_dedupAux _ _ h
  rw [List.mem_map] at h2
  obtain ⟨s0, hs0, heq⟩ := h2
  subst heq
  exact ⟨rfl, s0, hs0, rfl, rfl, rfl, rfl, rfl, rfl, rfl, rfl, rfl, rfl⟩

unseal Rat.add Rat.sub Rat.mul Rat.inv in
/-- C8 witness: the stamping theorem at a single stub detector emitting the
concrete MACD bullish signal, aggregated under timeframe "1d". -/
theorem aggregator_stamps_timeframe_witness :
    (SignalAggregator.setTimeframe "1d" macdBullSignal).timeframe = "1d"
      ∧ ∃ s0 ∈ SignalAggregator.collectSignals
            [fun _ => Except.ok [macdBullSignal]] (0 : ℕ),
          (SignalAggregator.setTimeframe "1d" macdBullSignal).name = s0.name
            ∧ (SignalAggregator.setTimeframe "1d" macdBullSignal).category = s0.category
            ∧ (SignalAggregator.setTimeframe "1d" macdBullSignal).strength = s0.strength
            ∧ (SignalAggregator.setTimeframe "1d" macdBullSignal).description = s0.description
            ∧ (SignalAggregator.setTimeframe "1d" macdBullSignal).value = s0.value
            ∧ (SignalAggregator.setTimeframe "1d" macdBullSignal).confidence = s0.confidence
            ∧ (SignalAggregator.setTimeframe "1d" macdBullSignal).timestamp = s0.timestamp
            ∧ (SignalAggregator.setTimeframe "1d" macdBullSignal).indicator_name
                = s0.indicator_name
            ∧ (SignalAggregator.setTimeframe "1d" macdBullSignal).details = s0.details
            ∧ (SignalAggregator.setTimeframe "1d" macdBullSignal).trading_implication
                = s0.trading_implication :=
  aggregator_stamps_timeframe "1d" [fun _ => Except.ok [macdBullSignal]] (0 : ℕ)
    (SignalAggregator.setTimeframe "1d" macdBullSignal) (by decide)

/-! ## Lemmas about the aggregator's two-pass sort (for C1) -/

namespace SignalSorter

lemma lexGe_trans {a b c : Signal} (hab : lexGe a b) (hbc : lexGe b c) : lexGe a c := by
  rcases hab with h1 | ⟨h1, h2⟩ <;> rcases hbc with h3 | ⟨h3, h4⟩
  · exact Or.inl (lt_trans h3 h1)
  · refine Or.inl ?_
    rw [← h3]
    exact h1
  · refine Or.inl ?_
    rw [h1]
    exact h3
  · exact Or.inr ⟨h1.trans h3, le_trans h2 h4⟩

lemma orderedInsert_pairwise_lex (y : Signal) :
    ∀ l : List Signal, l.Pairwise lexGe →
      (∀ z ∈ l, z.confidence = y.confidence →
        strengthRank y.strength ≤ strengthRank z.strength) →
      (List.orderedInsert confGe y l).Pairwise lexGe := by
  intro l
  induction l with
  | nil =>
    intro _ _
    simp [List.orderedInsert]
  | cons z zs ih =>
    intro hpw hy
    simp only [List.orderedInsert]
    by_cases h : confGe y z
    · rw [if_pos h]
      have hyz : lexGe y z := by
        rcases lt_or_eq_of_le (show z.confidence ≤ y.confidence from h) with hlt | heq
        · exact Or.inl hlt
        · exact Or.inr ⟨heq.symm, hy z (List.mem_cons_self _ _) heq⟩
      refine List.Pairwise.cons ?_ hpw
      intro w hw
      rcases List.mem_cons.mp hw with hwz | hwzs
      · exact hwz ▸ hyz
      · exact lexGe_trans hyz (List.rel_of_pairwise_cons hpw hwzs)
    · rw [if_neg h]
      have hzy : y.confidence < z.confidence := by
        have := not_le.mp (fun hc => h hc)
        exact this
      refine List.Pairwise.cons ?_ ?_
      · intro w hw
        rcases (List.mem_orderedInsert confGe).mp hw with hwy | hwzs
        · exact hwy ▸ Or.inl hzy
        · exact List.rel_of_pairwise_cons hpw hwzs
      · exact ih hpw.of_cons fun w hw hc => hy w (List.mem_cons_of_mem _ hw) hc

lemma insertionSort_confGe_pairwise_lex :
    ∀ m : List Signal, m.Pairwise strengthLe →
      (List.insertionSort confGe m).Pairwise lexGe := by
  intro m
  induction m with
  | nil =>
    intro _
    simp [List.insertionSort]
  | cons y ys ih =>
    intro hpw
    rw [List.insertionSort]
    apply orderedInsert_pairwise_lex
    · exact ih hpw.of_cons
    · intro z hz _
      exact List.rel_of_pairwise_cons hpw ((List.mem_insertionSort _).mp hz)

lemma filter_orderedInsert_pos {α : Type} (r : α → α → Prop) [DecidableRel r]
    (p : α → Bool) (x : α) :
    ∀ l : List α, p x = true → (∀ z ∈ l, p z = true → r x z) →
      (List.orderedInsert r x l).filter p = x :: l.filter p := by
  intro l
  induction l with
  | nil =>
    intro hx _
    simp [List.orderedInsert, hx]
  | cons z zs ih =>
    intro hx hall
    simp only [List.orderedInsert]
    by_cases h : r x z
    · rw [if_pos h]
      simp [List.filter_cons, hx]
    · rw [if_neg h]
      have hz : p z = false := by
        cases hpz : p z with
        | false => rfl
        | true => exact absurd (hall z (List.mem_cons_self _ _) hpz) h
      simp only [List.filter_cons, hz, if_neg, Bool.false_eq_true, if_false]
      exact ih hx fun w hw hpw => hall w (List.mem_cons_of_mem _ hw) hpw

lemma filter_orderedInsert_neg {α : Type} (r : α → α → Prop) [DecidableRel r]
    (p : α → Bool) (x : α) :
    ∀ l : List α, p x = false →
      (List.orderedInsert r x l).filter p = l.filter p := by
  intro l
  induction l with
  | nil =>
    intro hx
    simp [List.orderedInsert, hx]
  | cons z zs ih =>
    intro hx
    simp only [List.orderedInsert]
    by_cases h : r x z
    · rw [if_pos h]
      simp [List.filter_cons, hx]
    · rw [if_neg h]
      simp only [List.filter_cons]
      rw [ih hx]

lemma filter_insertionSort {α : Type} (r : α → α → Prop) [DecidableRel r]
    (p : α → Bool) (hkey : ∀ a b, p a = true → p b = true → r a b) :
    ∀ l : List α, (List.insertionSort r l).filter p = l.filter p := by
  intro l
  induction l with
  | nil => rfl
  | cons x xs ih =>
    rw [List.insertionSort]
    cases hx : p x with
    | true =>
      rw [filter_orderedInsert_pos r p x _ hx fun z _ hpz => hkey x z hx hpz, ih]
      simp [List.filter_cons, hx]
    | false =>
      rw [filter_orderedInsert_neg r p x _ hx, ih]
      simp [List.filter_cons, hx]

end SignalSorter

/-- C1 (amended): the aggregator's final ordering (strength sort followed by
a stable re-sort of the whole list by descending confidence) is primarily by
DESCENDING CONFIDENCE; only within a group of equal confidence are signals
ordered by the fixed strength rank (EXTREME BULLISH first .. EXTREME BEARISH,
unranked last), and signals of identical confidence and strength retain
their detector-emission order (the output is a permutation of the input
whose equal-key subsequences are unchanged). -/
theorem aggregator_sort_order (l : List Signal) :
    (SignalSorter.by_confidence (SignalSorter.by_strength l) false).Perm l
      ∧ (SignalSorter.by_confidence (SignalSorter.by_strength l) false).Pairwise
          SignalSorter.lexGe
      ∧ ∀ (c : ℚ) (st : String),
          (SignalSorter.by_confidence (SignalSorter.by_strength l) false).filter
              (fun s => decide (s.confidence = c ∧ s.strength = st))
            = l.filter (fun s => decide (s.confidence = c ∧ s.strength = st)) := by
  unfold SignalSorter.by_confidence SignalSorter.by_strength
  rw [if_neg (by simp)]
  refine ⟨?_, ?_, ?_⟩
  · exact (List.perm_insertionSort _ _).trans (List.perm_insertionSort _ _)
  · apply SignalSorter.insertionSort_confGe_pairwise_lex
    exact List.sorted_insertionSort SignalSorter.strengthLe l
  · intro c st
    rw [SignalSorter.filter_insertionSort SignalSorter.confGe _ ?_,
      SignalSorter.filter_insertionSort SignalSorter.strengthLe _ ?_]
    · intro a b ha hb
      have ha2 := of_decide_eq_true ha
      have hb2 := of_decide_eq_true hb
      show SignalSorter.strengthRank a.strength ≤ SignalSorter.strengthRank b.strength
      rw [ha2.2, hb2.2]
    · intro a b ha hb
      have ha2 := of_decide_eq_true ha
      have hb2 := of_decide_eq_true hb
      show b.confidence ≤ a.confidence
      rw [ha2.1, hb2.1]

set_option maxRecDepth 4000 in
unseal Rat.add Rat.sub Rat.mul Rat.inv in
/-- C1 counterexample: collecting an EXTREME BULLISH signal (strength rank 0,
confidence 0.5) and a BEARISH signal (strength rank 5, confidence 0.9), the
aggregator's final ordering puts the rank-5 BEARISH signal FIRST, so the
ordering is not primarily by the fixed strength rank as claimed: the second
stable sort reorders the whole list by descending confidence. -/
theorem aggregator_sort_claim_counterexample :
    (SignalAggregator.detect "1d"
          [fun _ => Except.ok [extremeBullLowConf, bearishHighConf]] (0 : ℕ)).signals
        = [SignalAggregator.setTimeframe "1d" bearishHighConf,
            SignalAggregator.setTimeframe "1d" extremeBullLowConf]
      ∧ ((SignalAggregator.detect "1d"
          [fun _ => Except.ok [extremeBullLowConf, bearishHighConf]] (0 : ℕ)).signals.map
            fun s => SignalSorter.strengthRank s.strength) = [5, 0]
      ∧ ¬ (5 : ℕ) ≤ 0 := by
  refine ⟨by decide, by decide, by decide⟩
